import Mathlib

/-
  Verification of the iterator core of vt-go (src/iterator.go): cursor
  encoding/decoding, the producer loop, and the consumer-facing pull API.

  The Go code is shallowly embedded: pure helpers become Lean functions,
  the mutable `Iterator` struct becomes an explicit record threaded through
  state-passing functions, and the producer goroutine becomes a fuelled
  recursive function that returns the full sequence of items it pushes into
  the delivery channel (the channel is FIFO with a single producer and a
  single consumer, so the consumer observes exactly that sequence).
-/

namespace VtGo

/-- Position Record from src/iterator.go (`type cursor struct`): a resumption
link plus an in-page offset. -/
structure cursor where
  Link : String
  Offset : Int
  deriving DecidableEq, Repr

/-! ### JSON serialization of the cursor record

`cursor.encode` runs `json.NewEncoder(fw).Encode(c)` through a flate writer
and a base64 RawURL encoder.  The JSON stage is modelled concretely below,
matching Go `encoding/json` output for this struct:
`\x7b"Link":"<escaped>","Offset":<int>\x7d` followed by a newline, with the
default HTML-escaping of `<`, `>`, `&` and the JSON escaping of `"`, `\`,
control characters and U+2028/U+2029. -/

/-- Decimal digit to character, `0 ↦ '0'`, ..., `9 ↦ '9'`. -/
def digitChar (d : Nat) : Char := Char.ofNat (48 + d)

/-- Character to decimal digit value. -/
def charDigit (c : Char) : Nat := c.toNat - 48

/-- Is `c` one of `'0'..'9'`? -/
def isDigitChar (c : Char) : Bool := 48 ≤ c.toNat && c.toNat ≤ 57

/-- Core loop producing the decimal digits of `n` most-significant first in
front of `acc`; `fuel` bounds the iteration count and any `fuel > n` is
enough. -/
def natCharsCore : Nat → Nat → List Char → List Char
  | 0, _, acc => acc
  | Nat.succ fuel, n, acc =>
    if n = 0 then acc
    else natCharsCore fuel (n / 10) (digitChar (n % 10) :: acc)

/-- Decimal representation of a natural number, as Go prints it. -/
def natChars (n : Nat) : List Char :=
  if n = 0 then ['0'] else natCharsCore (n + 1) n []

/-- Decimal representation of an integer, as Go `encoding/json` prints an
`int` field. -/
def intChars (i : Int) : List Char :=
  if i < 0 then '-' :: natChars i.natAbs else natChars i.toNat

/-- Hexadecimal digit to character, lowercase, as Go writes `\u00xx` escapes. -/
def hexDigitChar (d : Nat) : Char :=
  if d < 10 then Char.ofNat (48 + d) else Char.ofNat (87 + d)

/-- Character to hexadecimal digit value (accepting both cases). -/
def hexCharVal (c : Char) : Option Nat :=
  if 48 ≤ c.toNat && c.toNat ≤ 57 then some (c.toNat - 48)
  else if 97 ≤ c.toNat && c.toNat ≤ 102 then some (c.toNat - 87)
  else if 65 ≤ c.toNat && c.toNat ≤ 70 then some (c.toNat - 55)
  else none

/-- Four hex digits of a value below 0x10000, as in a `\uXXXX` escape. -/
def hex4 (v : Nat) : List Char :=
  [hexDigitChar (v / 4096 % 16), hexDigitChar (v / 256 % 16),
   hexDigitChar (v / 16 % 16), hexDigitChar (v % 16)]

/-- JSON escaping of one character, following Go `encoding/json` with its
default HTML escaping (`<`, `>`, `&` and U+2028/U+2029 become `\uXXXX`). -/
def escapeChar (c : Char) : List Char :=
  if c = '"' then ['\\', '"']
  else if c = '\\' then ['\\', '\\']
  else if c = '\n' then ['\\', 'n']
  else if c = '\r' then ['\\', 'r']
  else if c = '\t' then ['\\', 't']
  else if c.toNat < 32 ∨ c = '<' ∨ c = '>' ∨ c = '&'
       ∨ c.toNat = 8232 ∨ c.toNat = 8233 then '\\' :: 'u' :: hex4 c.toNat
  else [c]

/-- JSON escaping of a string body. -/
def escapeString : List Char → List Char
  | [] => []
  | c :: t => escapeChar c ++ escapeString t

/-- Inverse of a two-character JSON escape. -/
def unescapeChar (e : Char) : Option Char :=
  if e = '"' then some '"'
  else if e = '\\' then some '\\'
  else if e = '/' then some '/'
  else if e = 'n' then some '\n'
  else if e = 'r' then some '\r'
  else if e = 't' then some '\t'
  else if e = 'b' then some (Char.ofNat 8)
  else if e = 'f' then some (Char.ofNat 12)
  else none

/-- Parse the body of a JSON string up to and including the closing quote;
returns the unescaped body and the remaining input. -/
def parseJString : List Char → Option (List Char × List Char)
  | [] => none
  | c :: rest =>
    if c = '"' then some ([], rest)
    else if c = '\\' then
      match rest with
      | [] => none
      | e :: rest₂ =>
        if e = 'u' then
          match rest₂ with
          | h1 :: h2 :: h3 :: h4 :: rest₃ =>
            match hexCharVal h1, hexCharVal h2, hexCharVal h3, hexCharVal h4 with
            | some a, some b, some x, some d =>
              (parseJString rest₃).map
                (fun p => (Char.ofNat (((a * 16 + b) * 16 + x) * 16 + d) :: p.1, p.2))
            | _, _, _, _ => none
          | _ => none
        else
          match unescapeChar e with
          | some u => (parseJString rest₂).map (fun p => (u :: p.1, p.2))
          | none => none
    else (parseJString rest).map (fun p => (c :: p.1, p.2))

/-- Parse a decimal natural number (nonempty digit run); returns the value
and the remaining input. -/
def parseNatChars (cs : List Char) : Option (Nat × List Char) :=
  let ds := cs.takeWhile isDigitChar
  if ds = [] then none
  else some (ds.foldl (fun a c => a * 10 + charDigit c) 0, cs.dropWhile isDigitChar)

/-- Parse a decimal integer with optional leading minus sign. -/
def parseIntChars (cs : List Char) : Option (Int × List Char) :=
  if cs.head? = some '-' then
    (parseNatChars cs.tail).map (fun p => (-(p.1 : Int), p.2))
  else
    (parseNatChars cs).map (fun p => ((p.1 : Int), p.2))

/-- A scalar JSON value, as far as the cursor decoder needs to inspect one. -/
inductive JVal where
  | str : List Char → JVal
  | num : Int → JVal
  | other : JVal
  deriving DecidableEq, Repr

/-- Parse one scalar JSON value (string, number, `true`, `false`, `null`). -/
def parseJValue (cs : List Char) : Option (JVal × List Char) :=
  if cs.head? = some '"' then
    (parseJString cs.tail).map (fun p => (JVal.str p.1, p.2))
  else if cs.head? = some 't' then
    if cs.take 4 = "true".data then some (JVal.other, cs.drop 4) else none
  else if cs.head? = some 'f' then
    if cs.take 5 = "false".data then some (JVal.other, cs.drop 5) else none
  else if cs.head? = some 'n' then
    if cs.take 4 = "null".data then some (JVal.other, cs.drop 4) else none
  else
    (parseIntChars cs).map (fun p => (JVal.num p.1, p.2))

/-- Keep the first recorded error, as Go `encoding/json` reports the first
field error while continuing to decode. -/
def keepFirst (e : Option String) (m : String) : Option String :=
  match e with
  | some x => some x
  | none => some m

/-- Assign one decoded JSON object field into the cursor record.  Modelled
from Go `encoding/json` semantics: a type mismatch on a field records an
error but decoding continues with the record as updated so far; unknown
fields are ignored. -/
def assignField (c : cursor) (e : Option String) (key : List Char) (v : JVal) :
    cursor × Option String :=
  if key = "Link".data then
    match v with
    | JVal.str s => ({ c with Link := String.mk s }, e)
    | _ => (c, keepFirst e "cannot unmarshal value into field Link")
  else if key = "Offset".data then
    match v with
    | JVal.num n => ({ c with Offset := n }, e)
    | _ => (c, keepFirst e "cannot unmarshal value into field Offset")
  else (c, e)

/-- Decode the `key : value` pairs of a JSON object body into the cursor,
field by field.  Modelled from the spec and Go `encoding/json`: syntax
errors abort at once, type errors are recorded (first one wins) while
decoding continues.  `fuel` bounds the number of pairs and always suffices
when it exceeds the input length. -/
def decodePairs : Nat → cursor → Option String → List Char → cursor × Option String
  | 0, c, _, _ => (c, some "maximum depth exceeded")
  | Nat.succ f, c, e, cs =>
    if cs.head? = some '"' then
      match parseJString cs.tail with
      | none => (c, some "unexpected end of JSON input")
      | some (key, r1) =>
        if r1.head? = some ':' then
          match parseJValue r1.tail with
          | none => (c, some "invalid character in value")
          | some (v, r3) =>
            let s := assignField c e key v
            if r3.head? = some ',' then decodePairs f s.1 s.2 r3.tail
            else if r3.head? = some '\x7d' then (s.1, s.2)
            else (s.1, some "invalid character after value")
        else (c, some "invalid character after key")
    else (c, some "invalid character looking for key")

/-- Decode a JSON object into the cursor record (the structured-form stage
of `cursor.decode`). -/
def jsonDecodeCursor (c : cursor) (cs : List Char) : cursor × Option String :=
  if cs.head? = some '\x7b' then
    if cs.tail.head? = some '\x7d' then (c, none)
    else decodePairs (cs.tail.length + 1) c none cs.tail
  else (c, some "invalid character looking for beginning of object")

/-- Go `encoding/json` output for the cursor struct, newline-terminated as
`Encoder.Encode` produces it. -/
def jsonEncodeCursor (c : cursor) : List Char :=
  '\x7b' :: '"' :: ("Link".data ++ '"' :: ':' :: '"' ::
    (escapeString c.Link.data ++ '"' :: ',' :: '"' ::
      ("Offset".data ++ '"' :: ':' :: (intChars c.Offset ++ ['\x7d', '\n']))))

/-- Modelled from the spec: the flate `BestCompression` writer composed with
the base64 `RawURLEncoding` encoder (both Go standard library, outside this
repository).  Their only contract the codec relies on is deterministic
lossless round-tripping, so the pair is modelled as the identity codec. -/
def pack (s : String) : String := s

/-- Modelled from the spec: the base64 `RawURLEncoding` decoder composed with
the flate reader, the inverse of `pack`. -/
def unpack (s : String) : Option String := some s

/-- `cursor.encode` from src/iterator.go: the empty-link fast path returns
the empty string; otherwise JSON-serialize, compress, base64-encode. -/
def cursor.encode (c : cursor) : String :=
  if c.Link = "" then "" else pack (String.mk (jsonEncodeCursor c))

/-- `cursor.decode` from src/iterator.go, state-passing for the receiver:
the empty string resets the record; otherwise base64-decode, decompress and
JSON-decode into the record, returning the first error if any. -/
def cursor.decode (c : cursor) (s : String) : cursor × Option String :=
  if s = "" then ({ Link := "", Offset := 0 }, none)
  else
    match unpack s with
    | none => (c, some "decode error")
    | some t => jsonDecodeCursor c t.data

/-! ### The iterator: data model

`Links` and the response envelope live in the repository outside the
provided source file; they are modelled from the spec: a page comes with a
`self` link, a `next` link (empty when the collection is exhausted) and an
opaque metadata blob, here a `String`.  Domain objects are opaque values of
a type parameter `α`.  The page-fetcher adapter (`client.GetData` plus
`url.Parse`) is the external collaborator boundary and is modelled as a
function from the request URL to a page or an error. -/

structure Links where
  Self : String
  Next : String
  deriving DecidableEq, Repr

structure Response (α : Type) where
  objects : List α
  links : Links
  meta : String
  deriving DecidableEq, Repr

def Backend (α : Type) : Type := String → Except String (Response α)

/-- `collectionObject` from src/iterator.go: a domain object tagged with the
Position Record describing the position immediately after it. -/
structure collectionObject (α : Type) where
  object : α
  cursor : cursor
  deriving DecidableEq, Repr

/-- One value sent over the delivery channel `it.ch`: either a tagged object
or a terminal error, mirroring the `interface\x7b\x7d` channel payload. -/
inductive chanItem (α : Type) where
  | obj : α → cursor → chanItem α
  | err : String → chanItem α
  deriving DecidableEq, Repr

/-- The mutable `Iterator` struct of src/iterator.go, minus the channel and
goroutine plumbing (`client`, `ch`, `done`), which the embedding replaces by
the explicit item stream and the fuelled producer function. -/
structure Iterator (α : Type) where
  next : Option α
  err : Option String
  closed : Bool
  limit : Nat
  count : Nat
  batchSize : Nat
  filter : String
  cursor : String
  descriptorsOnly : Bool
  links : Links
  meta : String
  deriving DecidableEq, Repr

/-- How the producer loop ended: `finished` models reaching line 318-320
(set `closed`, close the channel and the done signal); `panicked` models a
Go runtime panic (out-of-range slice), after which the channel is never
closed; `outOfFuel` only signals insufficient fuel in the model. -/
inductive endState where
  | finished
  | panicked
  | outOfFuel
  deriving DecidableEq, Repr

/-- Go slice expression `xs[n:]`: out of range (and a runtime panic) unless
`0 ≤ n ≤ len(xs)`. -/
def goSliceFrom (xs : List α) (n : Int) : Option (List α) :=
  if 0 ≤ n ∧ n ≤ xs.length then some (xs.drop n.toNat) else none

/-- `Iterator.getMoreObjects` from src/iterator.go: fetch the page at
`it.links.Next`; on success overwrite `it.links` and `it.meta` with the
response values and return the objects.  `url.Parse` failures are folded
into the backend error. -/
def getMoreObjects (B : Backend α) (it : Iterator α) :
    Iterator α × Except String (List α) :=
  match B it.links.Next with
  | Except.error e => (it, Except.error e)
  | Except.ok resp =>
    ({ it with links := resp.links, meta := resp.meta }, Except.ok resp.objects)

/-- The cursor attached to the object at index `i` of the sliced page of
length `n` (src/iterator.go lines 297-305): the last object points at the
next page with offset zero, every other object points at the current page's
self link with offset one past its absolute position `skip + i`. -/
def tagObject (links : Links) (skip : Int) (n : Nat) (i : Nat) (object : α) :
    collectionObject α :=
  if i = n - 1 then { object := object, cursor := { Link := links.Next, Offset := 0 } }
  else { object := object,
         cursor := { Link := links.Self, Offset := skip + (i : Int) + 1 } }

/-- The `for i, object := range objects` tagging loop, from index `i`. -/
def tagFrom (links : Links) (skip : Int) (n : Nat) : Nat → List α → List (collectionObject α)
  | _, [] => []
  | i, o :: os => tagObject links skip n i o :: tagFrom links skip n (i + 1) os

/-- Tag a sliced page of objects with their resumption cursors. -/
def tagPage (links : Links) (skip : Int) (objects : List α) : List (collectionObject α) :=
  tagFrom links skip objects.length 0 objects

/-- `Iterator.iterate` from src/iterator.go, the producer loop, as a fuelled
function from the loop state (iterator record, `skip`, `sent`) to the
sequence of channel items it sends, the final iterator state and how it
ended.  The consumer never cancels in the modelled executions, so
`sendToChannel` always eventually succeeds and its `stop` branch is not
taken; backpressure only affects timing, not the delivered sequence.  Note
the faithful quirks: a fetch error is sent but the loop still falls through
to the slice expression `objects[skip:]` on the nil page, and `it.closed`
is set only on the normal exit path. -/
def iterate (B : Backend α) : Nat → Iterator α → Int → Nat →
    List (chanItem α) × Iterator α × endState
  | 0, it, _, _ => ([], it, endState.outOfFuel)
  | Nat.succ fuel, it, skip, sent =>
    if it.limit = 0 ∨ sent < it.limit then
      match getMoreObjects B it with
      | (it₁, Except.error e) =>
        match goSliceFrom ([] : List α) skip with
        | none => ([chanItem.err e], it₁, endState.panicked)
        | some _ =>
          ([chanItem.err e], { it₁ with closed := true }, endState.finished)
      | (it₁, Except.ok objs) =>
        match goSliceFrom objs skip with
        | none => ([], it₁, endState.panicked)
        | some objs₂ =>
          let items := (tagPage it₁.links skip objs₂).map
            (fun co => chanItem.obj co.object co.cursor)
          if objs₂.length = 0 ∨ it₁.links.Next = "" then
            (items, { it₁ with closed := true }, endState.finished)
          else
            let r := iterate B fuel it₁ 0 (sent + objs₂.length)
            (items ++ r.1, r.2.1, r.2.2)
    else ([], { it with closed := true }, endState.finished)

/-- `Iterator.Next` from src/iterator.go, the consumer-side advance: the
channel receive becomes taking the head of the remaining stream (an empty
stream models the closed channel).  Returns the Go return value, the
updated iterator and the remaining stream. -/
def Iterator.Next (it : Iterator α) (stream : List (chanItem α)) :
    Bool × Iterator α × List (chanItem α) :=
  if 0 < it.limit ∧ it.count = it.limit then (false, it, stream)
  else
    match stream with
    | [] => (false, it, [])
    | chanItem.obj v cur :: rest =>
      (true, { it with next := some v, cursor := cursor.encode cur,
                       count := it.count + 1 }, rest)
    | chanItem.err e :: rest =>
      (false, { it with next := none, err := some e }, rest)

/-- Repeatedly call `Next` while it returns true, collecting `it.Get()`
after each successful advance, as the documented `for it.Next()` consumer
loop does. -/
def drive : Nat → Iterator α → List (chanItem α) →
    List α × Iterator α × List (chanItem α)
  | 0, it, stream => ([], it, stream)
  | Nat.succ fuel, it, stream =>
    match Iterator.Next it stream with
    | (true, it₁, rest) =>
      match it₁.next with
      | some v =>
        let r := drive fuel it₁ rest
        (v :: r.1, r.2.1, r.2.2)
      | none => ([], it₁, rest)
    | (false, it₁, rest) => ([], it₁, rest)

/-- Outcome of one `Close()` call: `noop` (already closed), `signaled` (sent
on the live done channel), or `panicked` (send on the already-closed done
channel, a Go runtime panic). -/
inductive closeOutcome where
  | noop
  | signaled
  | panicked
  deriving DecidableEq, Repr

/-- `Iterator.Close` from src/iterator.go: a no-op when `it.closed` is
already set, otherwise sets it and sends on `it.done`.  `doneRetired` says
whether the producer has already closed the done channel (line 320). -/
def Iterator.Close (it : Iterator α) (doneRetired : Bool) :
    Iterator α × closeOutcome :=
  if it.closed then (it, closeOutcome.noop)
  else ({ it with closed := true },
    if doneRetired then closeOutcome.panicked else closeOutcome.signaled)

/-- The zero-valued iterator record as `newIterator` allocates it, with the
options applied. -/
def initIterator (tok : String) (limit : Nat) : Iterator α :=
  { next := none, err := none, closed := false, limit := limit, count := 0,
    batchSize := 0, filter := "", cursor := tok, descriptorsOnly := false,
    links := { Self := "", Next := "" }, meta := "" }

/-- `newIterator` from src/iterator.go: with a nonempty cursor option the
token is decoded (a failure fails construction), its link becomes
`links.Next` and its offset the initial `skip`; otherwise the start URL
(already carrying any query options, built by the external net/url library)
becomes `links.Next`.  The producer is then started; the model returns its
entire output. -/
def newIterator (B : Backend α) (u : String) (tok : String) (limit : Nat)
    (fuel : Nat) : Except String (List (chanItem α) × Iterator α × endState) :=
  if tok = "" then
    Except.ok (iterate B fuel
      { initIterator tok limit with links := { Self := "", Next := u } } 0 0)
  else
    match cursor.decode { Link := "", Offset := 0 } tok with
    | (_, some e) => Except.error e
    | (c, none) =>
      Except.ok (iterate B fuel
        { initIterator tok limit with links := { Self := "", Next := c.Link } }
        c.Offset 0)

/-- The sequence of objects a consumer that drains the iterator observes. -/
def iteratorYields (B : Backend α) (u : String) (tok : String) (limit : Nat)
    (fuel : Nat) : Except String (List α) :=
  (newIterator B u tok limit fuel).map (fun r => (drive fuel r.2.1 r.1).1)

/-- A backend serving two pages `[a, b]` and `[c, d]` linked sequentially:
`p1` lists itself as self link and `p2` as next, `p2` has no next link. -/
def backend2 (a b c d : α) : Backend α := fun u =>
  if u = "p1" then Except.ok ⟨[a, b], ⟨"p1", "p2"⟩, "m1"⟩
  else if u = "p2" then Except.ok ⟨[c, d], ⟨"p2", ""⟩, "m2"⟩
  else Except.error "404"

/-- A backend whose first page `[a, b]` succeeds and whose second page
fetch fails. -/
def backendErr (a b : α) : Backend α := fun u =>
  if u = "p1" then Except.ok ⟨[a, b], ⟨"p1", "p2"⟩, "m1"⟩
  else Except.error "boom"

/-- The producer run of a freshly constructed iterator (no cursor option):
`newIterator` with an empty cursor sets `links.Next` to the start URL and
launches the producer with `skip = 0`. -/
def runFresh (B : Backend α) (u : String) (limit : Nat) (fuel : Nat) :
    List (chanItem α) × Iterator α × endState :=
  iterate B fuel { initIterator "" limit with links := { Self := "", Next := u } } 0 0

/-! ### Round-trip lemmas for the numeric part of the codec -/

theorem digitChar_rt : ∀ d, d < 10 →
    charDigit (digitChar d) = d ∧ isDigitChar (digitChar d) = true := by decide

theorem hexCharVal_hexDigitChar : ∀ v, v < 16 →
    hexCharVal (hexDigitChar v) = some v := by decide

theorem natCharsCore_eq (fuel : Nat) : ∀ n acc, n < fuel →
    natCharsCore fuel n acc = ((Nat.digits 10 n).reverse.map digitChar) ++ acc := by
  induction fuel with
  | zero => intro n acc h; omega
  | succ f ih =>
    intro n acc h
    by_cases h0 : n = 0
    · subst h0; simp [natCharsCore]
    · have hdiv : n / 10 < f := by
        have h1 : n / 10 < n := Nat.div_lt_self (Nat.pos_of_ne_zero h0) (by norm_num)
        omega
      rw [natCharsCore, if_neg h0, ih (n / 10) _ hdiv,
        Nat.digits_def' (by norm_num : (1:ℕ) < 10) (Nat.pos_of_ne_zero h0)]
      simp [List.reverse_cons, List.map_append]

theorem natChars_mem_digit {n : Nat} {c : Char} (h : c ∈ natChars n) :
    isDigitChar c = true := by
  by_cases h0 : n = 0
  · subst h0
    have h00 : natChars 0 = ['0'] := rfl
    rw [h00, List.mem_singleton] at h
    subst h; decide
  · rw [natChars, if_neg h0, natCharsCore_eq (n + 1) n [] (by omega),
      List.append_nil] at h
    rcases List.mem_map.mp h with ⟨d, hd, rfl⟩
    exact (digitChar_rt d (Nat.digits_lt_base (by norm_num) (List.mem_reverse.mp hd))).2

theorem natChars_ne_nil (n : Nat) : natChars n ≠ [] := by
  by_cases h0 : n = 0
  · subst h0; simp [natChars]
  · rw [natChars, if_neg h0, natCharsCore_eq (n + 1) n [] (by omega), List.append_nil]
    simp only [ne_eq, List.map_eq_nil_iff, List.reverse_eq_nil_iff]
    exact Nat.digits_ne_nil_iff_ne_zero.mpr h0

theorem foldl_digits (L : List Nat) (h : ∀ d ∈ L, d < 10) (a : Nat) :
    (L.reverse.map digitChar).foldl (fun x c => x * 10 + charDigit c) a
      = a * 10 ^ L.length + Nat.ofDigits 10 L := by
  induction L generalizing a with
  | nil => simp
  | cons d T ih =>
    have hd : d < 10 := h d (by simp)
    simp only [List.reverse_cons, List.map_append, List.foldl_append, List.map_cons,
      List.map_nil, List.foldl_cons, List.foldl_nil]
    rw [ih (fun x hx => h x (by simp [hx])) a, (digitChar_rt d hd).1, Nat.ofDigits_cons,
      List.length_cons, pow_succ]
    ring

theorem natChars_foldl (n : Nat) :
    (natChars n).foldl (fun a c => a * 10 + charDigit c) 0 = n := by
  by_cases h0 : n = 0
  · subst h0; decide
  · rw [natChars, if_neg h0, natCharsCore_eq (n + 1) n [] (by omega), List.append_nil,
      foldl_digits _ (fun d hd => Nat.digits_lt_base (by norm_num) hd) 0]
    simp [Nat.ofDigits_digits]

theorem takeWhile_split (p : Char → Bool) (l₁ : List Char) (y : Char) (l₂ : List Char)
    (h₁ : ∀ x ∈ l₁, p x = true) (h₂ : p y = false) :
    (l₁ ++ y :: l₂).takeWhile p = l₁ ∧ (l₁ ++ y :: l₂).dropWhile p = y :: l₂ := by
  induction l₁ with
  | nil => simp [List.takeWhile_cons, List.dropWhile_cons, h₂]
  | cons x t ih =>
    have hx : p x = true := h₁ x (by simp)
    have ht := ih (fun z hz => h₁ z (by simp [hz]))
    simp [List.takeWhile_cons, List.dropWhile_cons, hx, ht.1, ht.2]

theorem parseNatChars_natChars (n : Nat) (y : Char) (l₂ : List Char)
    (hy : isDigitChar y = false) :
    parseNatChars (natChars n ++ y :: l₂) = some (n, y :: l₂) := by
  have hsplit := takeWhile_split isDigitChar (natChars n) y l₂
    (fun c hc => natChars_mem_digit hc) hy
  rw [parseNatChars]
  simp only [hsplit.1, hsplit.2]
  rw [if_neg (natChars_ne_nil n), natChars_foldl]

theorem parseIntChars_intChars (i : Int) (y : Char) (l₂ : List Char)
    (hy : isDigitChar y = false) :
    parseIntChars (intChars i ++ y :: l₂) = some (i, y :: l₂) := by
  by_cases hneg : i < 0
  · rw [intChars, if_pos hneg, parseIntChars]
    simp only [List.cons_append, List.head?_cons, List.tail_cons, if_pos rfl]
    rw [parseNatChars_natChars i.natAbs y l₂ hy]
    simp only [Option.map_some']
    rw [show -((i.natAbs : Int)) = i from by omega]
    simp
  · rw [intChars, if_neg hneg, parseIntChars]
    have hne := natChars_ne_nil i.toNat
    rw [List.head?_append_of_ne_nil _ hne]
    have hnedash : (natChars i.toNat).head? ≠ some '-' := by
      cases hh : (natChars i.toNat).head? with
      | none => simp
      | some c =>
        have hc : c ∈ natChars i.toNat := List.mem_of_mem_head? hh
        have hdig := natChars_mem_digit hc
        intro hcontra
        rw [Option.some_inj.mp hcontra] at hdig
        exact absurd hdig (by decide)
    rw [if_neg hnedash, parseNatChars_natChars i.toNat y l₂ hy]
    simp only [Option.map_some']
    rw [Int.toNat_of_nonneg (by omega : 0 ≤ i)]

/-! ### Round-trip of the JSON string escaping -/

theorem parseJString_escape (l r : List Char) :
    parseJString (escapeString l ++ '"' :: r) = some (l, r) := by
  induction l with
  | nil =>
    rw [escapeString, List.nil_append, parseJString.eq_def]
    simp
  | cons c t ih =>
    rw [escapeString, List.append_assoc, escapeChar]
    by_cases h1 : c = '"'
    · subst h1
      rw [if_pos rfl, List.cons_append, List.cons_append, List.nil_append,
        parseJString.eq_def]
      simp [unescapeChar, ih]
    · rw [if_neg h1]
      by_cases h2 : c = '\\'
      · subst h2
        rw [if_pos rfl, List.cons_append, List.cons_append, List.nil_append,
          parseJString.eq_def]
        simp [unescapeChar, ih]
      · rw [if_neg h2]
        by_cases h3 : c = '\n'
        · subst h3
          rw [if_pos rfl, List.cons_append, List.cons_append, List.nil_append,
            parseJString.eq_def]
          simp [unescapeChar, ih]
        · rw [if_neg h3]
          by_cases h4 : c = '\r'
          · subst h4
            rw [if_pos rfl, List.cons_append, List.cons_append, List.nil_append,
              parseJString.eq_def]
            simp [unescapeChar, ih]
          · rw [if_neg h4]
            by_cases h5 : c = '\t'
            · subst h5
              rw [if_pos rfl, List.cons_append, List.cons_append, List.nil_append,
                parseJString.eq_def]
              simp [unescapeChar, ih]
            · rw [if_neg h5]
              by_cases h6 : c.toNat < 32 ∨ c = '<' ∨ c = '>' ∨ c = '&'
                  ∨ c.toNat = 8232 ∨ c.toNat = 8233
              · rw [if_pos h6]
                have hv : c.toNat < 65536 := by
                  rcases h6 with h | h | h | h | h | h
                  · omega
                  · subst h; decide
                  · subst h; decide
                  · subst h; decide
                  · omega
                  · omega
                have ha := hexCharVal_hexDigitChar (c.toNat / 4096 % 16)
                  (Nat.mod_lt _ (by norm_num))
                have hb := hexCharVal_hexDigitChar (c.toNat / 256 % 16)
                  (Nat.mod_lt _ (by norm_num))
                have hx := hexCharVal_hexDigitChar (c.toNat / 16 % 16)
                  (Nat.mod_lt _ (by norm_num))
                have hd := hexCharVal_hexDigitChar (c.toNat % 16)
                  (Nat.mod_lt _ (by norm_num))
                have hcomb : ((c.toNat / 4096 % 16 * 16 + c.toNat / 256 % 16) * 16
                    + c.toNat / 16 % 16) * 16 + c.toNat % 16 = c.toNat := by omega
                simp only [hex4, List.cons_append, List.nil_append]
                rw [parseJString.eq_def]
                simp [ha, hb, hx, hd, ih, hcomb, Char.ofNat_toNat]
              · rw [if_neg h6]
                rw [List.cons_append, List.nil_append, parseJString.eq_def]
                simp [h1, h2, ih]

/-! ### Round-trip of the whole cursor codec -/

theorem parseJString_key (k rest : List Char) (hk : escapeString k = k) :
    parseJString (k ++ '"' :: rest) = some (k, rest) := by
  conv_lhs => rw [← hk]
  rw [parseJString_escape]

theorem parseJValue_int (i : Int) (y : Char) (r : List Char)
    (hy : isDigitChar y = false) :
    parseJValue (intChars i ++ y :: r) = some (JVal.num i, y :: r) := by
  have hne : intChars i ≠ [] := by
    rw [intChars]; split
    · simp
    · exact natChars_ne_nil _
  obtain ⟨c, hc⟩ : ∃ c, (intChars i).head? = some c := by
    cases h : intChars i with
    | nil => exact absurd h hne
    | cons a l => exact ⟨a, by simp [h]⟩
  have hmem : c ∈ intChars i := List.mem_of_mem_head? hc
  have hcprop : c = '-' ∨ isDigitChar c = true := by
    rw [intChars] at hmem
    split at hmem
    · rcases List.mem_cons.mp hmem with h | h
      · exact Or.inl h
      · exact Or.inr (natChars_mem_digit h)
    · exact Or.inr (natChars_mem_digit hmem)
  have hhead : (intChars i ++ y :: r).head? = some c := by
    rw [List.head?_append_of_ne_nil _ hne, hc]
  have hne1 : c ≠ '"' ∧ c ≠ 't' ∧ c ≠ 'f' ∧ c ≠ 'n' := by
    rcases hcprop with rfl | hd
    · exact ⟨by decide, by decide, by decide, by decide⟩
    · have hb : 48 ≤ c.toNat ∧ c.toNat ≤ 57 := by
        simpa [isDigitChar, Bool.and_eq_true, decide_eq_true_eq] using hd
      refine ⟨?_, ?_, ?_, ?_⟩ <;> intro h <;> subst h <;> exact absurd hb (by decide)
  simp only [parseJValue, hhead, Option.some.injEq]
  rw [if_neg hne1.1, if_neg hne1.2.1, if_neg hne1.2.2.1, if_neg hne1.2.2.2,
    parseIntChars_intChars i y r hy]
  rfl

theorem decodePairs_canonical (f : Nat) (c₀ : cursor) (L : List Char) (O : Int)
    (r : List Char) :
    decodePairs (f + 2) c₀ none
      ('"' :: ("Link".data ++ '"' :: ':' :: '"' ::
        (escapeString L ++ '"' :: ',' :: '"' ::
          ("Offset".data ++ '"' :: ':' :: (intChars O ++ '\x7d' :: r)))))
      = ({ Link := String.mk L, Offset := O }, none) := by
  obtain ⟨cl, co⟩ := c₀
  rw [show f + 2 = Nat.succ (f + 1) from rfl, decodePairs.eq_def]
  simp only [List.head?_cons, List.tail_cons]
  rw [if_true, parseJString_key ['L', 'i', 'n', 'k'] _ (by decide)]
  simp only [List.head?_cons, List.tail_cons, if_true]
  simp only [parseJValue, List.head?_cons, List.tail_cons, if_true]
  rw [parseJString_escape]
  simp only [Option.map_some']
  simp only [assignField, if_true]
  simp only [List.head?_cons, List.tail_cons, if_true]
  rw [show f + 1 = Nat.succ f from rfl, decodePairs.eq_def]
  simp only [List.head?_cons, List.tail_cons]
  rw [if_true, parseJString_key ['O', 'f', 'f', 's', 'e', 't'] _ (by decide)]
  simp only [List.head?_cons, List.tail_cons, if_true]
  rw [parseJValue_int O '\x7d' r (by decide)]
  simp only [assignField, List.head?_cons, if_true]
  rw [if_neg (by decide : ¬ ((some '\x7d' : Option Char) = some ','))]
  simp

theorem jsonDecodeCursor_encode (c₀ c : cursor) :
    jsonDecodeCursor c₀ (jsonEncodeCursor c) = (c, none) := by
  obtain ⟨cl, co⟩ := c
  simp only [jsonEncodeCursor, jsonDecodeCursor, List.head?_cons, List.tail_cons,
    List.length_cons]
  rw [if_true, if_neg (by decide : ¬ ((some '"' : Option Char) = some '\x7d'))]
  exact decodePairs_canonical _ c₀ cl.data co ['\n']

theorem decode_encode_of_ne (c₀ c : cursor) (h : c.Link ≠ "") :
    cursor.decode c₀ (cursor.encode c) = (c, none) := by
  have hne : cursor.encode c ≠ "" := by
    rw [cursor.encode, if_neg h]
    simp [pack, jsonEncodeCursor, String.ext_iff]
  simp only [cursor.decode, if_neg hne]
  rw [cursor.encode, if_neg h]
  simp only [pack, unpack]
  exact jsonDecodeCursor_encode c₀ c

/-! ### Helper lemmas about the producer and the consumer -/

theorem getMoreObjects_frame (B : Backend α) (it : Iterator α) :
    (getMoreObjects B it).1.next = it.next ∧ (getMoreObjects B it).1.err = it.err ∧
    (getMoreObjects B it).1.closed = it.closed ∧
    (getMoreObjects B it).1.limit = it.limit ∧
    (getMoreObjects B it).1.count = it.count ∧
    (getMoreObjects B it).1.cursor = it.cursor ∧
    (getMoreObjects B it).1.batchSize = it.batchSize ∧
    (getMoreObjects B it).1.filter = it.filter ∧
    (getMoreObjects B it).1.descriptorsOnly = it.descriptorsOnly := by
  unfold getMoreObjects
  cases B it.links.Next <;> simp

theorem iterate_frame (B : Backend α) : ∀ (fuel : Nat) (it : Iterator α)
    (skip : Int) (sent : Nat),
    (iterate B fuel it skip sent).2.1.next = it.next ∧
    (iterate B fuel it skip sent).2.1.err = it.err ∧
    (iterate B fuel it skip sent).2.1.cursor = it.cursor ∧
    (iterate B fuel it skip sent).2.1.count = it.count ∧
    (iterate B fuel it skip sent).2.1.limit = it.limit := by
  intro fuel
  induction fuel with
  | zero => intro it skip sent; simp [iterate]
  | succ f ih =>
    intro it skip sent
    have hfr := getMoreObjects_frame B it
    rw [iterate.eq_def]
    by_cases hl : it.limit = 0 ∨ sent < it.limit
    · simp only [if_pos hl]
      rcases hg : getMoreObjects B it with ⟨it₁, res⟩
      rw [hg] at hfr
      have h5 : it₁.next = it.next ∧ it₁.err = it.err ∧ it₁.cursor = it.cursor ∧
          it₁.count = it.count ∧ it₁.limit = it.limit :=
        ⟨hfr.1, hfr.2.1, hfr.2.2.2.2.2.1, hfr.2.2.2.2.1, hfr.2.2.2.1⟩
      cases res with
      | error e =>
        cases hs : goSliceFrom ([] : List α) skip with
        | none => simp only [hs]; exact h5
        | some o => simp only [hs]; exact h5
      | ok objs =>
        cases hs : goSliceFrom objs skip with
        | none => simp only [hs]; exact h5
        | some objs₂ =>
          by_cases hend : objs₂.length = 0 ∨ it₁.links.Next = ""
          · simp only [hs, if_pos hend]; exact h5
          · simp only [hs, if_neg hend]
            have hrec := ih it₁ 0 (sent + objs₂.length)
            exact ⟨hrec.1.trans h5.1, hrec.2.1.trans h5.2.1, hrec.2.2.1.trans h5.2.2.1,
              hrec.2.2.2.1.trans h5.2.2.2.1, hrec.2.2.2.2.trans h5.2.2.2.2⟩
    · simp only [if_neg hl]
      simp

theorem iterate_finished_closed (B : Backend α) : ∀ (fuel : Nat) (it : Iterator α)
    (skip : Int) (sent : Nat),
    (iterate B fuel it skip sent).2.2 = endState.finished →
    (iterate B fuel it skip sent).2.1.closed = true := by
  intro fuel
  induction fuel with
  | zero => intro it skip sent h; simp [iterate] at h
  | succ f ih =>
    intro it skip sent
    rw [iterate.eq_def]
    by_cases hl : it.limit = 0 ∨ sent < it.limit
    · simp only [if_pos hl]
      rcases hg : getMoreObjects B it with ⟨it₁, res⟩
      cases res with
      | error e =>
        cases hs : goSliceFrom ([] : List α) skip with
        | none => simp only [hs]; intro h; simp at h
        | some o => simp only [hs]; intro _; trivial
      | ok objs =>
        cases hs : goSliceFrom objs skip with
        | none => simp only [hs]; intro h; simp at h
        | some objs₂ =>
          by_cases hend : objs₂.length = 0 ∨ it₁.links.Next = ""
          · simp only [hs, if_pos hend]; intro _; trivial
          · simp only [hs, if_neg hend]
            exact ih it₁ 0 (sent + objs₂.length)
    · simp only [if_neg hl]; intro _; trivial

theorem drive_count_le : ∀ (fuel : Nat) (it : Iterator α) (stream : List (chanItem α)),
    0 < it.limit → it.count ≤ it.limit →
    (drive fuel it stream).2.1.count ≤ it.limit := by
  intro fuel
  induction fuel with
  | zero => intro it stream _ hc; simpa [drive] using hc
  | succ f ih =>
    intro it stream hl hc
    by_cases hg : 0 < it.limit ∧ it.count = it.limit
    · simp [drive, Iterator.Next, hg, hc]
    · cases stream with
      | nil => simpa [drive, Iterator.Next, hg] using hc
      | cons x rest =>
        cases x with
        | obj v cur =>
          have hlt : it.count < it.limit := by
            rcases Nat.lt_or_ge it.count it.limit with h | h
            · exact h
            · exact absurd ⟨hl, by omega⟩ hg
          have hrec := ih ({ it with next := some v, cursor := cursor.encode cur, count := it.count + 1 }) rest (by simpa using hl) (by simpa using hlt)
          simpa [drive, Iterator.Next, hg] using hrec
        | err e => simpa [drive, Iterator.Next, hg] using hc

theorem tagFrom_getElem (links : Links) (skip : Int) (n : Nat) :
    ∀ (os : List α) (j i : Nat),
      (tagFrom links skip n j os)[i]?
        = (os[i]?).map (fun o => tagObject links skip n (j + i) o) := by
  intro os
  induction os with
  | nil => intro j i; simp [tagFrom]
  | cons o t ih =>
    intro j i
    cases i with
    | zero => simp [tagFrom]
    | succ k =>
      simp only [tagFrom, List.getElem?_cons_succ]
      rw [ih (j + 1) k]
      simp only [show j + 1 + k = j + (k + 1) from by omega]

theorem tagPage_getElem (links : Links) (skip : Int) (os : List α) (i : Nat) :
    (tagPage links skip os)[i]?
      = (os[i]?).map (fun o => tagObject links skip os.length i o) := by
  rw [tagPage, tagFrom_getElem]
  simp

/-! ### The claims -/

/-- Claim C1, counterexample: the round-trip law fails on a Position Record
with an empty link but nonzero offset — `encode` collapses it to the empty
token (the empty-link fast path ignores the offset), and the empty token
decodes to the empty record. -/
theorem claim1_counterexample :
    (cursor.decode { Link := "", Offset := 0 }
      (cursor.encode { Link := "", Offset := 1 })).1
      ≠ { Link := "", Offset := 1 } := by decide

/-- Claim C1, amended: decoding the token produced by encoding `c` yields
`c` again for every record whose link is nonempty (from any prior state of
the target record); `encode` maps every empty-link record — whatever its
offset — to the empty string, and `decode` of the empty string yields the
empty record. -/
theorem claim1_roundtrip (c₀ c : cursor) :
    (c.Link ≠ "" → cursor.decode c₀ (cursor.encode c) = (c, none)) ∧
    (c.Link = "" → cursor.encode c = "") ∧
    cursor.decode c₀ "" = ({ Link := "", Offset := 0 }, none) := by
  refine ⟨fun h => decode_encode_of_ne c₀ c h, fun h => ?_, rfl⟩
  rw [cursor.encode, if_pos h]

theorem claim1_witness :
    ({ Link := "p", Offset := 3 } : cursor).Link ≠ "" ∧
    cursor.decode { Link := "", Offset := 0 }
      (cursor.encode { Link := "p", Offset := 3 })
      = ({ Link := "p", Offset := 3 }, none) :=
  ⟨by decide,
   (claim1_roundtrip { Link := "", Offset := 0 } { Link := "p", Offset := 3 }).1
     (by decide)⟩

/-- Claim C2: resumption.  Over the two-page backend, a fresh iterator
consumes `a, b` (or just `a`); a new iterator constructed from the cursor
token captured at that point yields exactly the remaining items `c, d`
(resp. `b, c, d`) — no duplicate, no gap — covering both the page-boundary
token (next link, offset zero) and the mid-page token (self link, nonzero
offset). -/
theorem claim2_resumption {α : Type} (a b c d : α) :
    newIterator (backend2 a b c d) "p1" "" 0 10
      = Except.ok (runFresh (backend2 a b c d) "p1" 0 10) ∧
    (drive 2 (runFresh (backend2 a b c d) "p1" 0 10).2.1
      (runFresh (backend2 a b c d) "p1" 0 10).1).1 = [a, b] ∧
    (drive 2 (runFresh (backend2 a b c d) "p1" 0 10).2.1
      (runFresh (backend2 a b c d) "p1" 0 10).1).2.1.cursor
      = cursor.encode { Link := "p2", Offset := 0 } ∧
    iteratorYields (backend2 a b c d) "unused"
      (cursor.encode { Link := "p2", Offset := 0 }) 0 10
      = Except.ok [c, d] ∧
    (drive 1 (runFresh (backend2 a b c d) "p1" 0 10).2.1
      (runFresh (backend2 a b c d) "p1" 0 10).1).1 = [a] ∧
    (drive 1 (runFresh (backend2 a b c d) "p1" 0 10).2.1
      (runFresh (backend2 a b c d) "p1" 0 10).1).2.1.cursor
      = cursor.encode { Link := "p1", Offset := 1 } ∧
    iteratorYields (backend2 a b c d) "unused"
      (cursor.encode { Link := "p1", Offset := 1 }) 0 10
      = Except.ok [b, c, d] :=
  ⟨rfl, rfl, rfl, rfl, rfl, rfl, rfl⟩

/-- Claim C3: ordering.  Over the two-page backend with items `a, b, c, d`,
an unlimited iterator yields exactly `a, b, c, d` in backend order, and the
advance following `d` returns false. -/
theorem claim3_ordering {α : Type} (a b c d : α) :
    newIterator (backend2 a b c d) "p1" "" 0 10
      = Except.ok (runFresh (backend2 a b c d) "p1" 0 10) ∧
    iteratorYields (backend2 a b c d) "p1" "" 0 10 = Except.ok [a, b, c, d] ∧
    (Iterator.Next
      (drive 10 (runFresh (backend2 a b c d) "p1" 0 10).2.1
        (runFresh (backend2 a b c d) "p1" 0 10).1).2.1
      (drive 10 (runFresh (backend2 a b c d) "p1" 0 10).2.1
        (runFresh (backend2 a b c d) "p1" 0 10).1).2.2).1 = false :=
  ⟨rfl, rfl, rfl⟩

/-- Claim C4: limit enforcement.  Once `count` has reached a positive
`limit`, every `Next` call returns false immediately, leaving the state and
the channel untouched; over any run the delivered count never exceeds the
limit; and concretely `WithLimit(2)` over the two-page backend yields
exactly `a, b`, after which `Next` returns false with no error recorded. -/
theorem claim4_limit {α : Type} :
    (∀ (it : Iterator α) (stream : List (chanItem α)),
      0 < it.limit → it.count = it.limit →
      Iterator.Next it stream = (false, it, stream)) ∧
    (∀ (fuel : Nat) (it : Iterator α) (stream : List (chanItem α)),
      0 < it.limit → it.count ≤ it.limit →
      (drive fuel it stream).2.1.count ≤ it.limit) ∧
    (∀ (a b c d : α),
      iteratorYields (backend2 a b c d) "p1" "" 2 10 = Except.ok [a, b] ∧
      Iterator.Next
        (drive 10 (runFresh (backend2 a b c d) "p1" 2 10).2.1
          (runFresh (backend2 a b c d) "p1" 2 10).1).2.1
        (drive 10 (runFresh (backend2 a b c d) "p1" 2 10).2.1
          (runFresh (backend2 a b c d) "p1" 2 10).1).2.2
        = (false,
           (drive 10 (runFresh (backend2 a b c d) "p1" 2 10).2.1
             (runFresh (backend2 a b c d) "p1" 2 10).1).2.1,
           (drive 10 (runFresh (backend2 a b c d) "p1" 2 10).2.1
             (runFresh (backend2 a b c d) "p1" 2 10).1).2.2) ∧
      (drive 10 (runFresh (backend2 a b c d) "p1" 2 10).2.1
        (runFresh (backend2 a b c d) "p1" 2 10).1).2.1.err = none) := by
  refine ⟨?_, drive_count_le, fun a b c d => ⟨rfl, rfl, rfl⟩⟩
  intro it stream h1 h2
  simp only [Iterator.Next]
  rw [if_pos ⟨h1, h2⟩]

theorem claim4_witness :
    (0:Nat) < 2 ∧
    Iterator.Next ({ initIterator "" 2 with count := 2 } : Iterator Nat) []
      = (false, { initIterator "" 2 with count := 2 }, []) ∧
    (drive 10 ({ initIterator "" 2 with count := 1 } : Iterator Nat) []).2.1.count ≤ 2 :=
  ⟨by decide,
   claim4_limit.1 ({ initIterator "" 2 with count := 2 }) [] (by decide) (by decide),
   claim4_limit.2.1 10 ({ initIterator "" 2 with count := 1 }) [] (by decide) (by decide)⟩

/-- Claim C5: error surfacing.  With page 1 succeeding and the fetch of
page 2 failing, the producer sends exactly the two page-1 items and then
the fetch error, and terminates (no retry); the consumer yields `a, b`
normally, then the next advance returns false with the current object
cleared and the fetch failure recorded as the last error. -/
theorem claim5_error_surfacing {α : Type} (a b : α) :
    (runFresh (backendErr a b) "p1" 0 10).1
      = [chanItem.obj a { Link := "p1", Offset := 1 },
         chanItem.obj b { Link := "p2", Offset := 0 },
         chanItem.err "boom"] ∧
    (runFresh (backendErr a b) "p1" 0 10).2.2 = endState.finished ∧
    (drive 10 (runFresh (backendErr a b) "p1" 0 10).2.1
      (runFresh (backendErr a b) "p1" 0 10).1).1 = [a, b] ∧
    (drive 10 (runFresh (backendErr a b) "p1" 0 10).2.1
      (runFresh (backendErr a b) "p1" 0 10).1).2.1.err = some "boom" ∧
    (drive 10 (runFresh (backendErr a b) "p1" 0 10).2.1
      (runFresh (backendErr a b) "p1" 0 10).1).2.1.next = none :=
  ⟨rfl, rfl, rfl, rfl, rfl⟩

/-- Claim C6: cursor tagging.  In a tagged (post-skip) page, every item but
the last carries the current page's self link with offset one past the
item's absolute position `skip + i`, and the last item carries the next
page's link with offset zero. -/
theorem claim6_tagging {α : Type} (links : Links) (skip : Int) (os : List α)
    (i : Nat) (_h : i < os.length) :
    (i + 1 < os.length →
      (tagPage links skip os)[i]?
        = (os[i]?).map (fun o =>
            collectionObject.mk o { Link := links.Self, Offset := skip + (i : Int) + 1 })) ∧
    (i = os.length - 1 →
      (tagPage links skip os)[i]?
        = (os[i]?).map (fun o =>
            collectionObject.mk o { Link := links.Next, Offset := 0 })) := by
  constructor
  · intro hlt
    rw [tagPage_getElem]
    have hne : i ≠ os.length - 1 := by omega
    simp [tagObject, hne]
  · intro heq
    rw [tagPage_getElem]
    simp [tagObject, heq]

theorem claim6_witness :
    ((0:Nat) < 3 ∧ (0:Nat) + 1 < 3) ∧
    (tagPage ({ Self := "s", Next := "n" } : Links) 1 [10, 20, 30])[0]?
      = some { object := 10, cursor := { Link := "s", Offset := 2 } } := by
  have h := (claim6_tagging ({ Self := "s", Next := "n" } : Links) 1
    [10, 20, 30] 0 (by decide)).1 (by decide)
  refine ⟨by decide, ?_⟩
  rw [h]
  decide

/-- Claim C7, counterexample: a token whose structured form is
`\x7b"Link":"x","Offset":"y"\x7d` makes decode fail (type mismatch on
`Offset`) yet the target record is left changed — its `Link` field has been
assigned — because Go `encoding/json` keeps decoding past a field type
error.  So a failing decode can leave partially applied state. -/
theorem claim7_counterexample :
    ((cursor.decode { Link := "", Offset := 0 }
      "\x7b\"Link\":\"x\",\"Offset\":\"y\"\x7d").2.isSome = true) ∧
    (cursor.decode { Link := "", Offset := 0 }
      "\x7b\"Link\":\"x\",\"Offset\":\"y\"\x7d").1 ≠ { Link := "", Offset := 0 } := by
  decide

/-- Claim C7, amended: decode reports any failure as a single error value,
and the target record is unchanged whenever the input fails before any
field is decoded (here: the unpacked bytes do not begin a JSON object); a
failure after a field has already been decoded may leave that field
assigned. -/
theorem claim7_amended (c₀ : cursor) (s : String) (h1 : s ≠ "")
    (h2 : s.data.head? ≠ some '\x7b') :
    (cursor.decode c₀ s).1 = c₀ ∧ (cursor.decode c₀ s).2.isSome = true := by
  simp only [cursor.decode, if_neg h1, unpack, jsonDecodeCursor, if_neg h2]
  simp

theorem claim7_witness :
    (("z" : String) ≠ "" ∧ ("z" : String).data.head? ≠ some '\x7b') ∧
    ((cursor.decode { Link := "q", Offset := 9 } "z").1 = { Link := "q", Offset := 9 } ∧
     (cursor.decode { Link := "q", Offset := 9 } "z").2.isSome = true) :=
  ⟨⟨by decide, by decide⟩,
   claim7_amended { Link := "q", Offset := 9 } "z" (by decide) (by decide)⟩

/-- Claim C8, counterexample: the producer-side page fetch `getMoreObjects`
does mutate the iterator's `links` and `meta` fields (src/iterator.go lines
278-279), contradicting the claim that only the consumer-side advance
writes them. -/
theorem claim8_counterexample :
    (getMoreObjects (backend2 (1:Nat) 2 3 4)
      { initIterator "" 0 with links := { Self := "", Next := "p1" } }).1.links
      ≠ ({ initIterator "" 0 with links := { Self := "", Next := "p1" } } : Iterator Nat).links ∧
    (getMoreObjects (backend2 (1:Nat) 2 3 4)
      { initIterator "" 0 with links := { Self := "", Next := "p1" } }).1.meta
      ≠ ({ initIterator "" 0 with links := { Self := "", Next := "p1" } } : Iterator Nat).meta := by
  decide

/-- Claim C8, amended: the single-writer split is the reverse of the
claimed one for links and metadata — the producer-side fetch writes only
`links` and `meta` (and the producer loop additionally sets `closed` at its
final transition), never `next`, `err`, `cursor`, `count` or `limit`; the
consumer-side `Next` writes only `next`, `cursor`, `count` and `err`, never
`links`, `meta`, `limit` or `closed`. -/
theorem claim8_frame {α : Type} :
    (∀ (B : Backend α) (it : Iterator α),
      (getMoreObjects B it).1.next = it.next ∧
      (getMoreObjects B it).1.err = it.err ∧
      (getMoreObjects B it).1.closed = it.closed ∧
      (getMoreObjects B it).1.limit = it.limit ∧
      (getMoreObjects B it).1.count = it.count ∧
      (getMoreObjects B it).1.cursor = it.cursor) ∧
    (∀ (B : Backend α) (fuel : Nat) (it : Iterator α) (skip : Int) (sent : Nat),
      (iterate B fuel it skip sent).2.1.next = it.next ∧
      (iterate B fuel it skip sent).2.1.err = it.err ∧
      (iterate B fuel it skip sent).2.1.cursor = it.cursor ∧
      (iterate B fuel it skip sent).2.1.count = it.count ∧
      (iterate B fuel it skip sent).2.1.limit = it.limit) ∧
    (∀ (it : Iterator α) (stream : List (chanItem α)),
      (Iterator.Next it stream).2.1.links = it.links ∧
      (Iterator.Next it stream).2.1.meta = it.meta ∧
      (Iterator.Next it stream).2.1.limit = it.limit ∧
      (Iterator.Next it stream).2.1.closed = it.closed) := by
  refine ⟨fun B it => ?_, fun B fuel it skip sent => iterate_frame B fuel it skip sent,
    fun it stream => ?_⟩
  · have h := getMoreObjects_frame B it
    exact ⟨h.1, h.2.1, h.2.2.1, h.2.2.2.1, h.2.2.2.2.1, h.2.2.2.2.2.1⟩
  · simp only [Iterator.Next]
    split
    · exact ⟨rfl, rfl, rfl, rfl⟩
    · cases stream with
      | nil => exact ⟨rfl, rfl, rfl, rfl⟩
      | cons x rest => cases x <;> exact ⟨rfl, rfl, rfl, rfl⟩

/-- Claim C9, evaluated at the failing input: an iterator resumed from the
cursor `(Link := "p1", Offset := 1)` against a backend whose first fetch
fails.  The producer sends the error but then evaluates `objects[skip:]` on
the nil page with `skip = 1`, which is out of range: the run ends in
`panicked` with `closed` still false — the channel is never closed, contra
the claim that the slice is always in bounds. -/
theorem claim9_panic :
    (newIterator (fun _ => Except.error "boom" : Backend Nat) "u"
      (cursor.encode { Link := "p1", Offset := 1 }) 0 10).map
      (fun r => (r.1, r.2.1.closed, r.2.2))
      = Except.ok ([chanItem.err "boom"], false, endState.panicked) := rfl

/-- Claim C10: close is idempotent.  A second `Close` after a first one is
a no-op; `Close` on an already-closed iterator (in particular after the
producer's final transition, which always sets `closed` before retiring the
done channel) is a no-op that does not touch the retired one-shot signal;
and under the invariant that the done channel is only retired after
`closed` is set, `Close` never panics by re-signalling it. -/
theorem claim10_close {α : Type} :
    (∀ (it : Iterator α) (d d₂ : Bool),
      Iterator.Close ((Iterator.Close it d).1) d₂
        = ((Iterator.Close it d).1, closeOutcome.noop)) ∧
    (∀ (it : Iterator α) (d : Bool), it.closed = true →
      Iterator.Close it d = (it, closeOutcome.noop)) ∧
    (∀ (it : Iterator α) (d : Bool), (d = true → it.closed = true) →
      (Iterator.Close it d).2 ≠ closeOutcome.panicked) ∧
    (∀ (B : Backend α) (fuel : Nat) (it : Iterator α) (skip : Int) (sent : Nat),
      (iterate B fuel it skip sent).2.2 = endState.finished →
      Iterator.Close (iterate B fuel it skip sent).2.1 true
        = ((iterate B fuel it skip sent).2.1, closeOutcome.noop)) := by
  have hnoop : ∀ (it : Iterator α) (d : Bool), it.closed = true →
      Iterator.Close it d = (it, closeOutcome.noop) := by
    intro it d h
    simp [Iterator.Close, h]
  refine ⟨?_, hnoop, ?_, ?_⟩
  · intro it d d₂
    by_cases h : it.closed
    · rw [hnoop it d h]; exact hnoop it d₂ h
    · have hcl : (Iterator.Close it d).1.closed = true := by
        simp [Iterator.Close, h]
      exact hnoop _ d₂ hcl
  · intro it d hinv
    by_cases h : it.closed
    · rw [hnoop it d h]; simp
    · cases d with
      | false => simp [Iterator.Close, h]
      | true => exact absurd (hinv rfl) h
  · intro B fuel it skip sent h
    exact hnoop _ true (iterate_finished_closed B fuel it skip sent h)

theorem claim10_witness :
    (({ initIterator "" 0 with closed := true } : Iterator Nat).closed = true) ∧
    Iterator.Close ({ initIterator "" 0 with closed := true } : Iterator Nat) true
      = ({ initIterator "" 0 with closed := true }, closeOutcome.noop) :=
  ⟨by decide,
   (claim10_close (α := Nat)).2.1 ({ initIterator "" 0 with closed := true }) true
     (by decide)⟩

end VtGo
